import Mathlib

/-!
Shallow embedding of the OpenAI → NVIDIA NIM proxy (`server.js`).

The repository holds two iterations of the same single-endpoint service:

* variant A — the env-driven version (reasoning display toggle, per-line
  `'\n'` SSE buffering, raw-passthrough on parse failure, no clamping,
  no empty-messages check, fabricating non-streaming assembly);
* variant B — the hardened rewrite (hardcoded flags, `"\n\n"` SSE
  buffering with an early `return` on `[DONE]`, silent drop on parse
  failure, clamping, strict message validation, missing-content check).

Strings flowing through the SSE byte stream are modelled as `List Char`;
JSON payload parsing (`JSON.parse`) is an external library call and is
passed in as a parameter `parse : List Char → Option ChunkTx`.
-/

namespace NimProxy

/-- A streaming delta object (`choices[0].delta`): optional fields of the
upstream JSON. `none` models an absent (or non-string) field. -/
structure DeltaTx where
  role : Option String
  content : Option String
  reasoning_content : Option String
  deriving DecidableEq, Repr

/-- One element of a chunk's `choices` array. -/
structure ChoiceTx where
  index : Option Int
  delta : Option DeltaTx
  finish_reason : Option String
  deriving DecidableEq, Repr

/-- A parsed streaming chunk (the JSON object carried by one SSE frame). -/
structure ChunkTx where
  model : String
  choices : List ChoiceTx
  deriving DecidableEq, Repr

/-- One outbound write on the client SSE connection: the `[DONE]`
terminator, a re-serialized transformed chunk, or a raw line forwarded
verbatim (variant A's parse-failure fallback), stored with the `"\n\n"`
suffix exactly as written. -/
inductive OutFrame where
  | done : OutFrame
  | frame (c : ChunkTx) : OutFrame
  | raw (l : List Char) : OutFrame
  deriving DecidableEq, Repr

/-- JS `s.split('\n')`: every maximal `'\n'`-free segment, in order;
never returns the empty list. -/
def splitNL : List Char → List (List Char)
  | [] => [[]]
  | c :: cs =>
    if c = '\n' then [] :: splitNL cs
    else
      match splitNL cs with
      | [] => [[c]]
      | l :: ls => (c :: l) :: ls

/-- JS `s.split('\n\n')`: leftmost non-overlapping two-newline delimiter
(variant B's framing). -/
def splitNN : List Char → List (List Char)
  | '\n' :: '\n' :: rest => [] :: splitNN rest
  | c :: rest =>
    match splitNN rest with
    | [] => [[c]]
    | l :: ls => (c :: l) :: ls
  | [] => [[]]

/-- JS `String.prototype.trim` on the ASCII whitespace the proxy sees. -/
def trimList (l : List Char) : List Char :=
  ((l.dropWhile Char.isWhitespace).reverse.dropWhile Char.isWhitespace).reverse

/-- JS `s.includes(pat)` — substring containment test. -/
def containsSeq (pat : List Char) : List Char → Bool
  | [] => pat.isEmpty
  | c :: rest => pat.isPrefixOf (c :: rest) || containsSeq pat rest

/-- The static `MODEL_MAPPING` table (identical in both variants). -/
def MODEL_MAPPING : List (List Char × List Char) :=
  [ ("gpt-3.5-turbo".toList, "nvidia/llama-3.1-nemotron-ultra-253b-v1".toList),
    ("gpt-4".toList, "qwen/qwen3-coder-480b-a35b-instruct".toList),
    ("gpt-4-turbo".toList, "moonshotai/kimi-k2-instruct-0905".toList),
    ("gpt-4o".toList, "deepseek-ai/deepseek-v3.1-terminus".toList),
    ("claude-3-opus".toList, "openai/gpt-oss-120b".toList),
    ("claude-3-sonnet".toList, "openai/gpt-oss-20b".toList),
    ("gemini-pro".toList, "qwen/qwen3-next-80b-a3b-thinking".toList) ]

/-- `DEFAULT_FALLBACK_MODEL` (the default used when the env variable is
unset in variant A; hardcoded in variant B). -/
def DEFAULT_FALLBACK_MODEL : List Char := "meta/llama-3.1-70b-instruct".toList

/-- `resolveNimModel` (identical decision logic in both variants):
explicit mapping, then `'/'`/`'-'` pass-through, then the lowercase
keyword heuristic, then the fallback. The argument is `none` for an
absent or non-string `model`; the empty string is falsy in JS and also
takes the fallback. -/
def resolveNimModel (fallback : List Char) (requested : Option (List Char)) : List Char :=
  match requested with
  | none => fallback
  | some s =>
    if s = [] then fallback
    else
      match List.lookup s MODEL_MAPPING with
      | some v => v
      | none =>
        if ('/' ∈ s) || ('-' ∈ s) then s
        else
          let lower := s.map Char.toLower
          if containsSeq "gpt-4".toList lower || containsSeq "opus".toList lower ||
              containsSeq "405b".toList lower then
            "meta/llama-3.1-405b-instruct".toList
          else if containsSeq "claude".toList lower || containsSeq "gemini".toList lower ||
              containsSeq "70b".toList lower then
            "meta/llama-3.1-70b-instruct".toList
          else fallback

/-! ### Variant A streaming transcoder -/

/-- JS truthiness of an optional string field combined with the explicit
`typeof x === 'string' && x.length > 0` checks of variant A. -/
def strTruthy : Option String → Bool
  | some s => s.length > 0
  | none => false

/-- Replace the delta of the first choice (the handler mutates
`choices[0].delta` in place). -/
def setHeadDelta (c : ChunkTx) (d : DeltaTx) : ChunkTx :=
  { c with choices :=
      match c.choices with
      | [] => []
      | ch :: rest => { ch with delta := some d } :: rest }

/-- `transformStreamChunk` (variant A): return the chunk untouched when it
has no first choice or no delta; otherwise overwrite `model` with the
requested identifier, and additionally delete `reasoning_content` when
reasoning display is off. -/
def transformStreamChunk (sr : Bool) (chunk : ChunkTx) (requestedModel : String) : ChunkTx :=
  match chunk.choices.head? with
  | none => chunk
  | some ch =>
    match ch.delta with
    | none => chunk
    | some d =>
      if sr then { chunk with model := requestedModel }
      else { setHeadDelta chunk { d with reasoning_content := none } with model := requestedModel }

/-- The reasoning-display block of variant A's data handler (the
`SHOW_REASONING && choice && choice.delta` branch): computes the new
`content`, opening `<think>\n` on the first reasoning fragment and
closing with `\n</think>\n\n` on the first content fragment while open,
then deletes `reasoning_content`. Returns the new `reasoningOpen` flag
and the rewritten delta. -/
def processDeltaReasoning (reasoningOpen : Bool) (d : DeltaTx) : Bool × DeltaTx :=
  let hasReasoning := strTruthy d.reasoning_content
  let hasContent := strTruthy d.content
  let step1 : String × Bool :=
    if hasReasoning then
      if reasoningOpen then (d.reasoning_content.getD "", true)
      else ("<think>\n" ++ d.reasoning_content.getD "", true)
    else ("", reasoningOpen)
  let step2 : String × Bool :=
    if hasContent then
      if step1.2 then ("\n</think>\n\n" ++ d.content.getD "", false)
      else (d.content.getD "", step1.2)
    else ("", step1.2)
  (step2.2, { d with content := some (step1.1 ++ step2.1), reasoning_content := none })

/-- Everything variant A's handler does to a successfully parsed chunk:
`transformStreamChunk`, then either the reasoning-display rewrite or the
reasoning-dropping branch, threading the `reasoningOpen` flag. -/
def processChunkA (sr : Bool) (requestedModel : String) (reasoningOpen : Bool)
    (chunk : ChunkTx) : Bool × ChunkTx :=
  let t := transformStreamChunk sr chunk requestedModel
  match t.choices.head? with
  | none => (reasoningOpen, t)
  | some ch =>
    match ch.delta with
    | none => (reasoningOpen, t)
    | some d =>
      if sr then
        let r := processDeltaReasoning reasoningOpen d
        (r.1, setHeadDelta t r.2)
      else (reasoningOpen, setHeadDelta t { d with reasoning_content := none })

/-- Variant A's per-line processing (the body of the `for` loop over
complete lines): skip non-`data:` lines, forward `[DONE]`, transform
parsed chunks, and forward the raw line (with its `"\n\n"` suffix) when
`JSON.parse` fails. -/
def processLineA (parse : List Char → Option ChunkTx) (sr : Bool) (requestedModel : String)
    (reasoningOpen : Bool) (line : List Char) : Bool × List OutFrame :=
  if ¬ ("data:".toList.isPrefixOf line) then (reasoningOpen, [])
  else
    let payload := trimList (line.drop 5)
    if payload = "[DONE]".toList then (reasoningOpen, [.done])
    else
      match parse payload with
      | some data =>
        let r := processChunkA sr requestedModel reasoningOpen data
        (r.1, [.frame r.2])
      | none => (reasoningOpen, [.raw (line ++ ['\n', '\n'])])

/-- Fold `processLineA` over the complete lines of one upstream chunk. -/
def processLinesA (parse : List Char → Option ChunkTx) (sr : Bool) (requestedModel : String) :
    Bool → List (List Char) → Bool × List OutFrame
  | reasoningOpen, [] => (reasoningOpen, [])
  | reasoningOpen, l :: ls =>
    let r1 := processLineA parse sr requestedModel reasoningOpen l
    let r2 := processLinesA parse sr requestedModel r1.1 ls
    (r2.1, r1.2 ++ r2.2)

/-- Variant A's per-connection mutable stream state: the carry-over text
buffer and the `reasoningOpen` flag. -/
structure AState where
  buffer : List Char
  reasoningOpen : Bool
  deriving DecidableEq, Repr

/-- The initial state of a fresh streaming connection
(`let buffer = ''; let reasoningOpen = false`). -/
def initAState : AState := { buffer := [], reasoningOpen := false }

/-- Variant A's `data` event handler: append the incoming chunk to the
buffer, split on `'\n'`, keep the trailing fragment as the new buffer
(`buffer = lines.pop() || ''`), and process every complete line. -/
def feedA (parse : List Char → Option ChunkTx) (sr : Bool) (requestedModel : String)
    (st : AState) (input : List Char) : AState × List OutFrame :=
  let lines := splitNL (st.buffer ++ input)
  let r := processLinesA parse sr requestedModel st.reasoningOpen lines.dropLast
  ({ buffer := lines.getLastD [], reasoningOpen := r.1 }, r.2)

/-- Feed a list of upstream chunks one `data` event at a time. -/
def feedManyA (parse : List Char → Option ChunkTx) (sr : Bool) (requestedModel : String) :
    AState → List (List Char) → AState × List OutFrame
  | st, [] => (st, [])
  | st, c :: cs =>
    let r1 := feedA parse sr requestedModel st c
    let r2 := feedManyA parse sr requestedModel r1.1 cs
    (r2.1, r1.2 ++ r2.2)

/-- Feed a sequence of parsed chunks through `processChunkA` (used to state
the delta-sequence claims at the level the spec phrases them). -/
def runChunksA (sr : Bool) (requestedModel : String) :
    Bool → List ChunkTx → Bool × List ChunkTx
  | reasoningOpen, [] => (reasoningOpen, [])
  | reasoningOpen, c :: cs =>
    let r1 := processChunkA sr requestedModel reasoningOpen c
    let r2 := runChunksA sr requestedModel r1.1 cs
    (r2.1, r1.2 :: r2.2)

/-- The visible text a client assembles from a sequence of emitted chunks:
the concatenation of each first-choice delta's `content`. -/
def visibleContent (cs : List ChunkTx) : String :=
  String.join (cs.map fun c => ((c.choices.head?.bind ChoiceTx.delta).bind DeltaTx.content).getD "")

/-! ### Variant B streaming transcoder -/

/-- Variant B's hardcoded `const SHOW_REASONING = false`. -/
def SHOW_REASONING_B : Bool := false

/-- Variant B's per-event transform inside the `try` block: forward
events without choices untouched; accessing `.delta.reasoning_content`
on a missing delta throws, which the empty `catch` swallows (`none` =
the frame is dropped); otherwise delete `reasoning_content` (wrapping it
only when the hardcoded flag is on) where present and truthy. -/
def processEventB (event : ChunkTx) : Option ChunkTx :=
  match event.choices.head? with
  | none => some event
  | some ch =>
    match ch.delta with
    | none => none
    | some d =>
      if strTruthy d.reasoning_content then
        let d' :=
          if SHOW_REASONING_B then
            { d with
              content := some ("<think>" ++ d.reasoning_content.getD "" ++ "</think>"
                ++ d.content.getD ""),
              reasoning_content := none }
          else { d with reasoning_content := none }
        some (setHeadDelta event d')
      else some event

/-- Variant B's `for` loop over the complete parts of one upstream chunk.
The `[DONE]` branch executes `return`, abandoning the remaining parts of
this chunk; a parse failure or a thrown delta access drops the single
frame and continues. -/
def processPartsB (parse : List Char → Option ChunkTx) : List (List Char) → List OutFrame
  | [] => []
  | p :: ps =>
    if ¬ ("data:".toList.isPrefixOf p) then processPartsB parse ps
    else
      let json := trimList (p.drop 5)
      if json = "[DONE]".toList then [.done]
      else
        match parse json with
        | none => processPartsB parse ps
        | some event =>
          match processEventB event with
          | none => processPartsB parse ps
          | some event' => .frame event' :: processPartsB parse ps

/-- Variant B's `data` event handler: append to the buffer, split on the
`"\n\n"` delimiter, keep the trailing fragment (`buffer = parts.pop()`),
process the complete parts. -/
def feedB (parse : List Char → Option ChunkTx) (buffer : List Char) (input : List Char) :
    List Char × List OutFrame :=
  let parts := splitNN (buffer ++ input)
  (parts.getLastD [], processPartsB parse parts.dropLast)

/-- Feed variant B one upstream chunk at a time. -/
def feedManyB (parse : List Char → Option ChunkTx) :
    List Char → List (List Char) → List Char × List OutFrame
  | buffer, [] => (buffer, [])
  | buffer, c :: cs =>
    let r1 := feedB parse buffer c
    let r2 := feedManyB parse r1.1 cs
    (r2.1, r1.2 ++ r2.2)

/-! ### Non-streaming responses -/

/-- An upstream (NIM) response message, optional fields as delivered. -/
structure NimMsg where
  role : Option String
  content : Option String
  reasoning_content : Option String
  deriving DecidableEq, Repr

/-- One upstream choice of a buffered completion response. -/
structure NimChoice where
  index : Option Int
  message : Option NimMsg
  finish_reason : Option String
  deriving DecidableEq, Repr

/-- The `usage` object. -/
structure Usage where
  prompt_tokens : Nat
  completion_tokens : Nat
  total_tokens : Nat
  deriving DecidableEq, Repr

/-- A buffered upstream success body (`choices` is `none` when the field
is absent). -/
structure NimData where
  id : Option String
  choices : Option (List NimChoice)
  usage : Option Usage
  deriving DecidableEq, Repr

/-- A message of the client-facing response. -/
structure RespMsg where
  role : String
  content : String
  deriving DecidableEq, Repr

/-- A choice of the client-facing response. -/
structure RespChoice where
  index : Int
  message : RespMsg
  finish_reason : String
  deriving DecidableEq, Repr

/-- The client-facing completion response body. -/
structure RespBody where
  id : String
  model : String
  choices : List RespChoice
  usage : Option Usage
  deriving DecidableEq, Repr

/-- What the non-streaming handler sends: a JSON success body or an error
envelope `status`/`message`. -/
inductive NonStreamResult where
  | ok (body : RespBody) : NonStreamResult
  | err (status : Nat) (message : String) : NonStreamResult
  deriving DecidableEq, Repr

/-- `mergeReasoningNonStream` (variant A): default the role to
`assistant`, default missing content to the empty string, and prepend
the wrapped reasoning text when display is enabled and the field is
truthy. -/
def mergeReasoningNonStream (sr : Bool) (message : Option NimMsg) : RespMsg :=
  let msg := message.getD { role := none, content := none, reasoning_content := none }
  let base := match msg.content with
    | some c => c
    | none => ""
  let content :=
    if sr && strTruthy msg.reasoning_content then
      "<think>\n" ++ msg.reasoning_content.getD "" ++ "\n</think>\n\n" ++ base
    else base
  { role := match msg.role with
      | some r => if r = "" then "assistant" else r
      | none => "assistant",
    content := content }

/-- Variant A's non-streaming assembly (`openaiStyleResponse`): maps
`nimData.choices || []` through `mergeReasoningNonStream` and always
echoes the requested model. `now` stands for `Date.now()`. -/
def buildResponseA (sr : Bool) (now : Nat) (requestedModel : String) (d : NimData) : RespBody :=
  let choices := (d.choices.getD []).mapIdx fun idx ch =>
    { index := ch.index.getD idx,
      message := mergeReasoningNonStream sr ch.message,
      finish_reason := match ch.finish_reason with
        | some f => if f = "" then "stop" else f
        | none => "stop" }
  { id := match d.id with
      | some i => if i = "" then "chatcmpl-" ++ toString now else i
      | none => "chatcmpl-" ++ toString now,
    model := requestedModel,
    choices := choices,
    usage := some (d.usage.getD { prompt_tokens := 0, completion_tokens := 0, total_tokens := 0 }) }

/-- Variant A's non-streaming tail: relay upstream 4xx as an error
envelope, otherwise always answer 200 with the assembled body. -/
def handleNonStreamA (sr : Bool) (now : Nat) (requestedModel : String)
    (upstreamStatus : Nat) (statusText : String) (d : NimData) : NonStreamResult :=
  if upstreamStatus ≥ 400 then .err upstreamStatus statusText
  else .ok (buildResponseA sr now requestedModel d)

/-- JS truthiness of `d.choices[0].message?.content` in variant B. -/
def contentTruthyB (d : NimData) : Bool :=
  match (d.choices.getD []).head? with
  | none => false
  | some ch =>
    match ch.message with
    | none => false
    | some m => strTruthy m.content

/-- Variant B's non-streaming tail: 502 envelope on upstream 4xx, the
`Invalid NIM response: missing content` 500 when `choices` is empty or
the first message content is falsy, else the single-choice response
echoing the requested model. -/
def handleNonStreamB (requestedModel : String)
    (upstreamStatus : Nat) (upstreamErrMsg : Option String) (d : NimData) : NonStreamResult :=
  if upstreamStatus ≥ 400 then .err 502 (upstreamErrMsg.getD "Upstream NIM error")
  else if ¬ ((d.choices.getD []) ≠ [] ∧ contentTruthyB d) then
    .err 500 "Invalid NIM response: missing content"
  else
    let ch := (d.choices.getD []).headD { index := none, message := none, finish_reason := none }
    let m := ch.message.getD { role := none, content := none, reasoning_content := none }
    let base := m.content.getD ""
    let content :=
      if SHOW_REASONING_B && strTruthy m.reasoning_content then
        "<think>" ++ m.reasoning_content.getD "" ++ "</think>" ++ base
      else base
    .ok { id := match d.id with
            | some i => if i = "" then "proxy-chatcmpl" else i
            | none => "proxy-chatcmpl",
          model := requestedModel,
          choices := [ { index := 0,
                         message := { role := "assistant", content := content },
                         finish_reason := match ch.finish_reason with
                           | some f => if f = "" then "stop" else f
                           | none => "stop" } ],
          usage := d.usage }

/-! ### Request validation and upstream payload construction -/

/-- A client-supplied message object; `none` in a field models an absent
(or non-string) value. -/
structure MsgObj where
  role : Option String
  content : Option String
  deriving DecidableEq, Repr

/-- The parsed `/v1/chat/completions` request body. `messages = none`
models a value that is not an array; an element `none` models an array
entry that is not an object. `temperature`/`max_tokens` are `none` when
absent or non-numeric; `stream` is the JS truthiness of the field. -/
structure ReqBody where
  model : Option (List Char)
  messages : Option (List (Option MsgObj))
  temperature : Option ℚ
  max_tokens : Option ℚ
  stream : Bool
  deriving DecidableEq, Repr

/-- The payload sent to the upstream `/chat/completions` endpoint. -/
structure UpstreamBody where
  model : List Char
  messages : List (Option MsgObj)
  temperature : ℚ
  max_tokens : ℚ
  stream : Bool
  chat_template_kwargs_thinking : Option Bool
  deriving DecidableEq, Repr

/-- The routing decision of the endpoint before contacting upstream:
reject with an error envelope, or proceed with an upstream payload. -/
inductive Decision where
  | reject (status : Nat) (message : String) (errType : String) : Decision
  | proceed (body : UpstreamBody) : Decision
  deriving DecidableEq, Repr

/-- Variant A's endpoint front: reject a falsy/non-string `model` and a
non-array `messages`, then build the upstream payload with the
roleplay defaults (`0.8`, `9024`) and no clamping. -/
def decisionA (thinkingMode : Bool) (fallback : List Char) (body : ReqBody) : Decision :=
  match body.model with
  | none => .reject 400 "Missing or invalid \"model\" (must be a string)." "invalid_request_error"
  | some m =>
    if m = [] then
      .reject 400 "Missing or invalid \"model\" (must be a string)." "invalid_request_error"
    else
      match body.messages with
      | none => .reject 400 "\"messages\" must be an array." "invalid_request_error"
      | some msgs =>
        .proceed
          { model := resolveNimModel fallback (some m),
            messages := msgs,
            temperature := body.temperature.getD 0.8,
            max_tokens := body.max_tokens.getD 9024,
            stream := body.stream,
            chat_template_kwargs_thinking := if thinkingMode then some true else none }

/-- `clamp` (variant B). -/
def clamp (num min' max' : ℚ) : ℚ := min (max num min') max'

/-- `validateMessages` (variant B): non-empty array of objects whose
`role` is one of the four literals and whose `content` is a string. -/
def validateMessages : Option (List (Option MsgObj)) → Option String
  | none => some "messages must be a non-empty array"
  | some [] => some "messages must be a non-empty array"
  | some (m :: ms) => validateEach (m :: ms)
where
  validateEach : List (Option MsgObj) → Option String
    | [] => none
    | none :: _ => some "each message must be an object"
    | some m :: rest =>
      if ¬ (m.role = some "system" ∨ m.role = some "user" ∨ m.role = some "assistant" ∨
          m.role = some "tool") then
        some ("invalid role '" ++ m.role.getD "undefined" ++ "'")
      else if m.content.isNone then some "message.content must be a string"
      else validateEach rest

/-- Variant B's hardcoded `const ENABLE_THINKING_MODE = false`. -/
def ENABLE_THINKING_MODE_B : Bool := false

/-- `THINKING_MODE_MODELS` (variant B). -/
def THINKING_MODE_MODELS : List (List Char) :=
  ["openai/gpt-oss-120b".toList, "openai/gpt-oss-20b".toList]

/-- Variant B's endpoint front: validate the messages, then build the
upstream payload with clamped `temperature`/`max_tokens` (defaults
`0.6`, `1024`) and the thinking directive gated on the model table. -/
def decisionB (body : ReqBody) : Decision :=
  match validateMessages body.messages with
  | some e => .reject 400 e "invalid_request_error"
  | none =>
    let nimModel := resolveNimModel DEFAULT_FALLBACK_MODEL body.model
    .proceed
      { model := nimModel,
        messages := (body.messages.getD []),
        temperature := clamp (body.temperature.getD 0.6) 0 2,
        max_tokens := clamp (body.max_tokens.getD 1024) 1 9024,
        stream := body.stream,
        chat_template_kwargs_thinking :=
          if ENABLE_THINKING_MODE_B && (nimModel ∈ THINKING_MODE_MODELS : Bool) then some true
          else none }

/-! ### Lemmas: the carry-over buffer of variant A is chunk-boundary independent -/

theorem splitNL_ne_nil (s : List Char) : splitNL s ≠ [] := by
  induction s with
  | nil => simp [splitNL]
  | cons c cs ih =>
    by_cases hc : c = '\n'
    · simp [splitNL, hc]
    · cases h : splitNL cs with
      | nil => exact absurd h ih
      | cons l ls => simp [splitNL, hc, h]

theorem getLastD_cons_of_ne_nil {α : Type _} (x d : α) {l : List α} (h : l ≠ []) :
    (x :: l).getLastD d = l.getLastD d := by
  cases l with
  | nil => exact absurd rfl h
  | cons y ys => rfl

theorem splitNL_append (a b : List Char) :
    splitNL (a ++ b) =
      (splitNL a).dropLast ++ splitNL ((splitNL a).getLastD [] ++ b) := by
  induction a with
  | nil => simp [splitNL]
  | cons c cs ih =>
    by_cases hc : c = '\n'
    · subst hc
      have hne := splitNL_ne_nil cs
      rw [List.cons_append]
      show [] :: splitNL (cs ++ b) = _
      rw [show splitNL ('\n' :: cs) = [] :: splitNL cs from rfl,
        List.dropLast_cons_of_ne_nil hne, getLastD_cons_of_ne_nil _ _ hne, ih]
      rfl
    · cases h : splitNL cs with
      | nil => exact absurd h (splitNL_ne_nil cs)
      | cons l ls =>
        cases ls with
        | nil =>
          have hstep : splitNL (c :: cs) = [c :: l] := by
            simp [splitNL, hc, h]
          have hib : splitNL (cs ++ b) = splitNL (l ++ b) := by
            rw [ih, h]; rfl
          have hlb := splitNL_ne_nil (l ++ b)
          cases h2 : splitNL (l ++ b) with
          | nil => exact absurd h2 hlb
          | cons m ms =>
            have hl : splitNL (c :: (cs ++ b)) = (c :: m) :: ms := by
              simp [splitNL, hc, hib, h2]
            have hr : splitNL (c :: (l ++ b)) = (c :: m) :: ms := by
              simp [splitNL, hc, h2]
            rw [List.cons_append, hl, hstep]
            simpa using hr.symm
        | cons l2 ls2 =>
          have hne2 : (l2 :: ls2 : List (List Char)) ≠ [] := by simp
          have hib : splitNL (cs ++ b) =
              l :: ((l2 :: ls2).dropLast ++ splitNL ((l2 :: ls2).getLastD [] ++ b)) := by
            rw [ih, h, List.dropLast_cons_of_ne_nil hne2, getLastD_cons_of_ne_nil _ _ hne2]
            rfl
          have hl : splitNL (c :: (cs ++ b)) =
              (c :: l) :: ((l2 :: ls2).dropLast ++ splitNL ((l2 :: ls2).getLastD [] ++ b)) := by
            simp [splitNL, hc, hib]
          have hstep : splitNL (c :: cs) = (c :: l) :: l2 :: ls2 := by
            simp [splitNL, hc, h]
          rw [List.cons_append, hl, hstep, List.dropLast_cons_of_ne_nil hne2,
            getLastD_cons_of_ne_nil _ _ hne2]
          rfl

theorem processLinesA_append (parse : List Char → Option ChunkTx) (sr : Bool)
    (requestedModel : String) (ro : Bool) (xs ys : List (List Char)) :
    processLinesA parse sr requestedModel ro (xs ++ ys) =
      ((processLinesA parse sr requestedModel
          (processLinesA parse sr requestedModel ro xs).1 ys).1,
        (processLinesA parse sr requestedModel ro xs).2 ++
          (processLinesA parse sr requestedModel
            (processLinesA parse sr requestedModel ro xs).1 ys).2) := by
  induction xs generalizing ro with
  | nil => simp [processLinesA]
  | cons x xs ih => simp [processLinesA, ih]

theorem feedA_append (parse : List Char → Option ChunkTx) (sr : Bool)
    (requestedModel : String) (st : AState) (a b : List Char) :
    feedA parse sr requestedModel st (a ++ b) =
      ((feedA parse sr requestedModel
          (feedA parse sr requestedModel st a).1 b).1,
        (feedA parse sr requestedModel st a).2 ++
          (feedA parse sr requestedModel
            (feedA parse sr requestedModel st a).1 b).2) := by
  have hsplit : splitNL (st.buffer ++ (a ++ b)) =
      (splitNL (st.buffer ++ a)).dropLast ++
        splitNL ((splitNL (st.buffer ++ a)).getLastD [] ++ b) := by
    rw [← List.append_assoc]
    exact splitNL_append (st.buffer ++ a) b
  have hS := splitNL_ne_nil ((splitNL (st.buffer ++ a)).getLastD [] ++ b)
  have hdrop : (splitNL (st.buffer ++ (a ++ b))).dropLast =
      (splitNL (st.buffer ++ a)).dropLast ++
        (splitNL ((splitNL (st.buffer ++ a)).getLastD [] ++ b)).dropLast := by
    rw [hsplit]
    exact List.dropLast_append_of_ne_nil _ hS
  have hlast : (splitNL (st.buffer ++ (a ++ b))).getLastD [] =
      (splitNL ((splitNL (st.buffer ++ a)).getLastD [] ++ b)).getLastD [] := by
    rw [hsplit, List.getLastD_eq_getLast?, List.getLastD_eq_getLast?, List.getLast?_append]
    cases h2 : (splitNL ((splitNL (st.buffer ++ a)).getLastD [] ++ b)).getLast? with
    | none => exact absurd (List.getLast?_eq_none_iff.mp h2) hS
    | some x =>
      simp only [List.getLastD_eq_getLast?] at h2 ⊢
      rw [h2]
      rfl
  simp only [feedA]
  rw [hdrop, hlast, processLinesA_append]

theorem not_newline_mem_getLastD_splitNL (s : List Char) :
    '\n' ∉ (splitNL s).getLastD [] := by
  induction s with
  | nil => simp [splitNL]
  | cons c cs ih =>
    by_cases hc : c = '\n'
    · subst hc
      rw [show splitNL ('\n' :: cs) = [] :: splitNL cs from rfl,
        getLastD_cons_of_ne_nil _ _ (splitNL_ne_nil cs)]
      exact ih
    · cases h : splitNL cs with
      | nil => exact absurd h (splitNL_ne_nil cs)
      | cons l ls =>
        cases ls with
        | nil =>
          have hstep : splitNL (c :: cs) = [c :: l] := by simp [splitNL, hc, h]
          rw [hstep]
          rw [h] at ih
          intro hm
          rcases List.mem_cons.mp hm with h1 | h1
          · exact hc h1.symm
          · exact ih h1
        | cons l2 ls2 =>
          have hne2 : (l2 :: ls2 : List (List Char)) ≠ [] := by simp
          have hstep : splitNL (c :: cs) = (c :: l) :: l2 :: ls2 := by simp [splitNL, hc, h]
          rw [hstep, getLastD_cons_of_ne_nil _ _ hne2]
          rw [h, getLastD_cons_of_ne_nil _ _ hne2] at ih
          exact ih

theorem splitNL_of_not_mem {s : List Char} (h : '\n' ∉ s) : splitNL s = [s] := by
  induction s with
  | nil => rfl
  | cons c cs ih =>
    have hc : c ≠ '\n' := fun hc => h (by simp [hc])
    have hcs : '\n' ∉ cs := fun hm => h (by simp [hm])
    simp [splitNL, hc, ih hcs]

theorem feedA_nil_of_clean (parse : List Char → Option ChunkTx) (sr : Bool)
    (requestedModel : String) (st : AState) (h : '\n' ∉ st.buffer) :
    feedA parse sr requestedModel st [] = (st, []) := by
  simp [feedA, splitNL_of_not_mem h, processLinesA]

theorem feedManyA_eq_feedA_flatten (parse : List Char → Option ChunkTx) (sr : Bool)
    (requestedModel : String) (st : AState) (h : '\n' ∉ st.buffer)
    (chunks : List (List Char)) :
    feedManyA parse sr requestedModel st chunks =
      feedA parse sr requestedModel st chunks.flatten := by
  induction chunks generalizing st with
  | nil =>
    rw [show ([] : List (List Char)).flatten = [] from rfl,
      feedA_nil_of_clean parse sr requestedModel st h]
    rfl
  | cons c cs ih =>
    have hclean : '\n' ∉ (feedA parse sr requestedModel st c).1.buffer := by
      simp only [feedA]
      exact not_newline_mem_getLastD_splitNL (st.buffer ++ c)
    calc feedManyA parse sr requestedModel st (c :: cs)
        = ((feedManyA parse sr requestedModel (feedA parse sr requestedModel st c).1 cs).1,
            (feedA parse sr requestedModel st c).2 ++
              (feedManyA parse sr requestedModel
                (feedA parse sr requestedModel st c).1 cs).2) := rfl
      _ = _ := by
          rw [ih _ hclean, show (c :: cs).flatten = c ++ cs.flatten from rfl,
            feedA_append]

/-! ### Lemmas about the model resolver -/

theorem char_toNat_ofNatAux (n : Nat) (h : n.isValidChar) : (Char.ofNatAux n h).toNat = n := by
  simp [Char.ofNatAux, Char.toNat, UInt32.toNat, UInt32.ofNatCore, BitVec.ofNat]

theorem char_toLower_eq_dash {c : Char} (h : Char.toLower c = '-') : c = '-' := by
  unfold Char.toLower at h
  by_cases hc : c.toNat ≥ 65 ∧ c.toNat ≤ 90
  · exfalso
    rw [if_pos hc] at h
    have hv : (c.toNat + 32).isValidChar := by
      left
      omega
    have hval : (Char.ofNat (c.toNat + 32)).toNat = c.toNat + 32 := by
      rw [Char.ofNat, dif_pos hv]
      exact char_toNat_ofNatAux _ hv
    have h45 := congrArg Char.toNat h
    rw [hval] at h45
    have : ('-').toNat = 45 := rfl
    omega
  · rw [if_neg hc] at h
    exact h

theorem mem_of_containsSeq {pat s : List Char} {c : Char}
    (h : containsSeq pat s = true) (hc : c ∈ pat) : c ∈ s := by
  induction s with
  | nil =>
    rw [containsSeq] at h
    rw [List.isEmpty_iff.mp h] at hc
    exact absurd hc (List.not_mem_nil c)
  | cons x rest ih =>
    rw [containsSeq, Bool.or_eq_true] at h
    rcases h with h | h
    · exact (List.isPrefixOf_iff_prefix.mp h).subset hc
    · exact List.mem_cons_of_mem x (ih h)

theorem lookup_eq_none_of_dash_free {s : List Char} (m : List (List Char × List Char))
    (hm : ∀ p ∈ m, '-' ∈ p.1) (h : '-' ∉ s) : List.lookup s m = none := by
  induction m with
  | nil => rfl
  | cons p ps ih =>
    obtain ⟨k, v⟩ := p
    have hk : s ≠ k := fun he => h (he ▸ hm (k, v) (by simp))
    have hbeq : (s == k) = false := beq_eq_false_iff_ne.mpr hk
    rw [List.lookup, hbeq]
    exact ih fun q hq => hm q (List.mem_cons_of_mem _ hq)

theorem lookup_model_mapping_eq_none {s : List Char} (h : '-' ∉ s) :
    List.lookup s MODEL_MAPPING = none :=
  lookup_eq_none_of_dash_free MODEL_MAPPING (by decide) h

theorem gpt4_not_in_lower {s : List Char} (h : '-' ∉ s) :
    containsSeq "gpt-4".toList (s.map Char.toLower) = false := by
  by_contra hne
  have htrue : containsSeq "gpt-4".toList (s.map Char.toLower) = true := by
    cases hb : containsSeq "gpt-4".toList (s.map Char.toLower)
    · exact absurd hb hne
    · rfl
  have hdash : '-' ∈ s.map Char.toLower :=
    mem_of_containsSeq htrue (by decide)
  obtain ⟨c, hcs, hcl⟩ := List.mem_map.mp hdash
  exact h (char_toLower_eq_dash hcl ▸ hcs)

/-! ### Claim theorems -/

/-- A parse function that fails on every payload (used to instantiate the
parse-parametric streaming theorems on concrete inputs). -/
def parseNone : List Char → Option ChunkTx := fun _ => none

/-- Build a single-choice streaming delta (concrete test input). -/
def mkDelta (rc ct : Option String) : DeltaTx :=
  { role := none, content := ct, reasoning_content := rc }

/-- Build a one-choice chunk around an optional delta (concrete test input). -/
def mkChunk (m : String) (d : Option DeltaTx) : ChunkTx :=
  { model := m, choices := [ { index := some 0, delta := d, finish_reason := none } ] }

/-- Claim C1: with reasoning display enabled, feeding variant A's
streaming transcoder the delta sequence reasoning "A", reasoning "B",
content "C" produces the final visible concatenated content
`<think>\nAB\n</think>\n\nC`: the first reasoning fragment opens the
wrapper, the second appends directly, and the first content fragment
closes the wrapper before the content. -/
theorem c1_reasoning_delta_sequence_wrap :
    visibleContent ((runChunksA true "gpt-4o" false
      [ mkChunk "up/m" (some (mkDelta (some "A") none)),
        mkChunk "up/m" (some (mkDelta (some "B") none)),
        mkChunk "up/m" (some (mkDelta none (some "C"))) ]).2) =
      "<think>\nAB\n</think>\n\nC" := by
  decide

/-- Claim C2 (amended): variant A's streaming transcoder is
chunk-boundary independent — starting from any state whose carry-over
buffer holds no newline (in particular the initial state), feeding the
upstream bytes in arbitrarily split chunks emits exactly the frames and
final state of feeding them as one chunk. Variant B does not satisfy the
claim (see the counterexample). -/
theorem c2_variantA_chunk_boundary_independence (parse : List Char → Option ChunkTx)
    (sr : Bool) (requestedModel : String) (st : AState) (h : '\n' ∉ st.buffer)
    (chunks : List (List Char)) :
    feedManyA parse sr requestedModel st chunks =
      feedA parse sr requestedModel st chunks.flatten :=
  feedManyA_eq_feedA_flatten parse sr requestedModel st h chunks

/-- Witness for C2: a concrete mid-frame split of a two-line stream
feeds the same frames as the whole stream at once. -/
theorem c2_variantA_chunk_boundary_independence_witness :
    '\n' ∉ initAState.buffer ∧
    feedManyA parseNone false "gpt-4o" initAState ["data: a".toList, "bc\n".toList] =
      feedA parseNone false "gpt-4o" initAState
        (["data: a".toList, "bc\n".toList]).flatten :=
  ⟨by decide,
    c2_variantA_chunk_boundary_independence parseNone false "gpt-4o" initAState (by decide)
      ["data: a".toList, "bc\n".toList]⟩

/-- Counterexample for C2 as stated: variant B's `[DONE]` branch returns
from the whole data handler, so a second frame sharing the chunk with a
`[DONE]` frame is dropped, while the same bytes split between two chunks
emit it — the outbound frame sequences differ. -/
theorem c2_counterexample_variantB_done_return :
    (feedManyB parseNone [] ["data: [DONE]\n\ndata: [DONE]\n\n".toList]).2 ≠
      (feedManyB parseNone []
        ["data: [DONE]\n\n".toList, "data: [DONE]\n\n".toList]).2 := by
  decide

/-- Claim C4: a requested identifier that misses the static mapping and
contains a dash or a slash is returned unchanged — the pass-through rule
fires after the exact lookup and before the lowercase heuristic. -/
theorem c4_passthrough_unmapped_dash_or_slash (fallback s : List Char)
    (hmap : List.lookup s MODEL_MAPPING = none) (h : '-' ∈ s ∨ '/' ∈ s) :
    resolveNimModel fallback (some s) = s := by
  have hne : s ≠ [] := by
    rcases h with h | h <;> exact List.ne_nil_of_mem h
  have hcond : (decide ('/' ∈ s) || decide ('-' ∈ s)) = true := by
    rcases h with h | h <;> simp [h]
  simp [resolveNimModel, hne, hmap, hcond]

/-- Witness for C4 at the unmapped identifier `custom-7b`. -/
theorem c4_passthrough_witness :
    List.lookup "custom-7b".toList MODEL_MAPPING = none ∧
    resolveNimModel DEFAULT_FALLBACK_MODEL (some "custom-7b".toList) = "custom-7b".toList :=
  ⟨by decide,
    c4_passthrough_unmapped_dash_or_slash DEFAULT_FALLBACK_MODEL "custom-7b".toList
      (by decide) (Or.inl (by decide))⟩

/-- Claim C9: for identifiers without a dash or slash the resolver's
`gpt-4` keyword can never match (lowercasing cannot produce the dash it
contains), so the large-model heuristic target is returned exactly for
inputs containing `opus` or `405b`. -/
theorem c9_gpt4_heuristic_unreachable (s : List Char) (hd : '-' ∉ s) (hs : '/' ∉ s) :
    containsSeq "gpt-4".toList (s.map Char.toLower) = false ∧
    (resolveNimModel DEFAULT_FALLBACK_MODEL (some s) =
        "meta/llama-3.1-405b-instruct".toList ↔
      (containsSeq "opus".toList (s.map Char.toLower) = true ∨
        containsSeq "405b".toList (s.map Char.toLower) = true)) := by
  refine ⟨gpt4_not_in_lower hd, ?_⟩
  by_cases hnil : s = []
  · subst hnil
    decide
  · have hmap := lookup_model_mapping_eq_none hd
    have hcond : (decide ('/' ∈ s) || decide ('-' ∈ s)) = false := by
      simp [hd, hs]
    have hgpt := gpt4_not_in_lower hd
    have hres : resolveNimModel DEFAULT_FALLBACK_MODEL (some s) =
        (if containsSeq "opus".toList (s.map Char.toLower) ||
              containsSeq "405b".toList (s.map Char.toLower) then
            "meta/llama-3.1-405b-instruct".toList
          else if containsSeq "claude".toList (s.map Char.toLower) ||
              containsSeq "gemini".toList (s.map Char.toLower) ||
              containsSeq "70b".toList (s.map Char.toLower) then
            "meta/llama-3.1-70b-instruct".toList
          else DEFAULT_FALLBACK_MODEL) := by
      have hgpt2 : containsSeq ('g' :: 'p' :: 't' :: '-' :: '4' :: [])
          (List.map Char.toLower s) = false := hgpt
      simp [resolveNimModel, hnil, hmap, hcond, hgpt2]
    rw [hres]
    cases hop : containsSeq "opus".toList (s.map Char.toLower) <;>
      cases h45 : containsSeq "405b".toList (s.map Char.toLower)
    · simp only [Bool.or_self]
      constructor
      · intro h
        rw [if_neg (by decide : ¬ false = true)] at h
        exfalso
        revert h
        split <;> intro h <;> exact absurd h (by decide)
      · intro h
        rcases h with h | h <;> exact absurd h (by decide)
    · simp
    · simp
    · simp

/-- Witness for C9 at the identifier `opus`. -/
theorem c9_gpt4_heuristic_unreachable_witness :
    ('-' ∉ "opus".toList) ∧
    resolveNimModel DEFAULT_FALLBACK_MODEL (some "opus".toList) =
      "meta/llama-3.1-405b-instruct".toList :=
  ⟨by decide,
    (c9_gpt4_heuristic_unreachable "opus".toList (by decide) (by decide)).2.mpr
      (Or.inl (by decide))⟩

/-- Claim C3 (amended): the non-streaming responses of both variants echo
the requested model, and variant A rewrites the model of streamed frames
that carry a first-choice delta; frames without one keep the upstream
model (see the counterexample), and variant B never rewrites streamed
models at all — every frame its stream handler forwards carries the
upstream frame's own model field. -/
theorem c3_amended_model_echo (sr : Bool) (req : String) :
    (∀ (now : Nat) (d : NimData), (buildResponseA sr now req d).model = req) ∧
    (∀ chunk : ChunkTx, (chunk.choices.head?.bind ChoiceTx.delta).isSome →
      (transformStreamChunk sr chunk req).model = req) ∧
    (∀ (status : Nat) (emsg : Option String) (d : NimData) (r : RespBody),
      handleNonStreamB req status emsg d = .ok r → r.model = req) ∧
    (∀ event event' : ChunkTx, processEventB event = some event' →
      event'.model = event.model) := by
  refine ⟨fun now d => rfl, fun chunk hdelta => ?_, fun status emsg d r hok => ?_,
    fun event event' hev => ?_⟩
  · cases hch : chunk.choices with
    | nil => rw [hch] at hdelta; simp at hdelta
    | cons ch rest =>
      cases hd : ch.delta with
      | none => rw [hch, List.head?_cons] at hdelta; simp [hd] at hdelta
      | some dd => cases sr <;> simp [transformStreamChunk, hch, hd, setHeadDelta]
  · unfold handleNonStreamB at hok
    split at hok
    · exact NonStreamResult.noConfusion hok
    · split at hok
      · exact NonStreamResult.noConfusion hok
      · cases hok
        rfl
  · obtain ⟨m, chs⟩ := event
    cases chs with
    | nil =>
      cases hev
      rfl
    | cons ch rest =>
      simp only [processEventB, List.head?_cons] at hev
      cases hd : ch.delta with
      | none =>
        rw [hd] at hev
        exact Option.noConfusion hev
      | some dd =>
        rw [hd] at hev
        dsimp only at hev
        by_cases hrc : strTruthy dd.reasoning_content = true
        · rw [if_pos hrc] at hev
          cases hev
          rfl
        · rw [if_neg hrc] at hev
          cases hev
          rfl

/-- Witness for the amended C3 on concrete inputs of all four shapes. -/
theorem c3_amended_model_echo_witness :
    (buildResponseA false 0 "gpt-4o" { id := none, choices := none, usage := none }).model =
      "gpt-4o" ∧
    (transformStreamChunk false (mkChunk "up/m" (some (mkDelta none (some "hi")))) "gpt-4o").model =
      "gpt-4o" ∧
    (∀ r : RespBody,
      handleNonStreamB "gpt-4o" 200 none
        { id := some "x",
          choices := some [ { index := some 0,
                              message := some { role := some "assistant", content := some "hi",
                                                reasoning_content := none },
                              finish_reason := some "stop" } ],
          usage := none } = .ok r → r.model = "gpt-4o") ∧
    (processEventB (mkChunk "up/m" (some (mkDelta (some "R") (some "C")))) =
        some (mkChunk "up/m" (some (mkDelta none (some "C")))) ∧
      (mkChunk "up/m" (some (mkDelta none (some "C")))).model =
        (mkChunk "up/m" (some (mkDelta (some "R") (some "C")))).model) :=
  have h := c3_amended_model_echo false "gpt-4o"
  ⟨h.1 0 _, h.2.1 _ (by decide), fun r => h.2.2.1 200 none _ r,
    by decide, h.2.2.2 _ _ (by decide)⟩

/-- Counterexample for C3 as stated: variant A forwards a parsed frame
without choices untouched, so the client observes the resolved upstream
model identifier instead of the requested one. -/
theorem c3_counterexample_frame_exposes_upstream_model :
    processChunkA true "gpt-4o" false ⟨"deepseek-ai/deepseek-v3.1-terminus", []⟩ =
      (false, ⟨"deepseek-ai/deepseek-v3.1-terminus", []⟩) ∧
    ("deepseek-ai/deepseek-v3.1-terminus" : String) ≠ "gpt-4o" := by
  decide

/-- A concrete request body (shared test input for the endpoint fronts). -/
def mkReq (m : Option (List Char)) (msgs : Option (List (Option MsgObj)))
    (t mt : Option ℚ) : ReqBody :=
  { model := m, messages := msgs, temperature := t, max_tokens := mt, stream := false }

/-- Claim C5 (amended): variant B rejects an empty `messages` array with
a 400 `invalid_request_error` before building the upstream payload;
variant A accepts it (see the counterexample). -/
theorem c5_amended_variantB_rejects_empty_messages (body : ReqBody)
    (h : body.messages = some []) :
    decisionB body = .reject 400 "messages must be a non-empty array" "invalid_request_error" := by
  simp [decisionB, h, validateMessages]

/-- Witness for the amended C5 at a concrete request. -/
theorem c5_amended_variantB_rejects_empty_messages_witness :
    (mkReq (some "gpt-4".toList) (some []) none none).messages = some [] ∧
    decisionB (mkReq (some "gpt-4".toList) (some []) none none) =
      .reject 400 "messages must be a non-empty array" "invalid_request_error" :=
  ⟨rfl, c5_amended_variantB_rejects_empty_messages _ rfl⟩

/-- Counterexample for C5 as stated: variant A's validation only checks
that `messages` is an array, so `messages: []` proceeds to the upstream
call instead of being rejected with 400. -/
theorem c5_counterexample_variantA_accepts_empty_messages :
    decisionA false DEFAULT_FALLBACK_MODEL (mkReq (some "gpt-4".toList) (some []) none none) =
      Decision.proceed
        { model := "qwen/qwen3-coder-480b-a35b-instruct".toList, messages := [],
          temperature := 0.8, max_tokens := 9024, stream := false,
          chat_template_kwargs_thinking := none } := by
  rfl

/-- Claim C6 (amended): variant B always sends a temperature in `[0, 2]`
and a max_tokens in `[1, 9024]` upstream; variant A forwards numeric
values unclamped (see the counterexample), defaulting only non-numeric
inputs. -/
theorem c6_amended_variantB_clamps (body : ReqBody) (b : UpstreamBody)
    (h : decisionB body = .proceed b) :
    0 ≤ b.temperature ∧ b.temperature ≤ 2 ∧ 1 ≤ b.max_tokens ∧ b.max_tokens ≤ 9024 := by
  unfold decisionB at h
  split at h
  · exact Decision.noConfusion h
  · cases h
    exact ⟨le_min (le_max_right _ _) (by norm_num), min_le_right _ _,
      le_min (le_max_right _ _) (by norm_num), min_le_right _ _⟩

/-- The concrete out-of-range request used by the C6 witness. -/
def c6req : ReqBody :=
  mkReq (some "gpt-4".toList)
    (some [some { role := some "user", content := some "hi" }]) (some 5) (some 0)

/-- The upstream payload variant B builds for `c6req`. -/
def c6out : UpstreamBody :=
  { model := "qwen/qwen3-coder-480b-a35b-instruct".toList,
    messages := [some { role := some "user", content := some "hi" }],
    temperature := 2, max_tokens := 1, stream := false,
    chat_template_kwargs_thinking := none }

/-- Witness for the amended C6: out-of-range inputs 5 and 0 are clamped
to 2 and 1 by variant B. -/
theorem c6_amended_variantB_clamps_witness :
    decisionB c6req = Decision.proceed c6out ∧
    (0 ≤ c6out.temperature ∧ c6out.temperature ≤ 2 ∧
      1 ≤ c6out.max_tokens ∧ c6out.max_tokens ≤ 9024) :=
  have hEq : decisionB c6req = Decision.proceed c6out := by decide
  ⟨hEq, c6_amended_variantB_clamps c6req c6out hEq⟩

/-- Counterexample for C6 as stated: variant A passes temperature 5 and
max_tokens 0 upstream unclamped. -/
theorem c6_counterexample_variantA_no_clamp :
    decisionA false DEFAULT_FALLBACK_MODEL
      (mkReq (some "gpt-4".toList)
        (some [some { role := some "user", content := some "hi" }]) (some 5) (some 0)) =
      Decision.proceed
        { model := "qwen/qwen3-coder-480b-a35b-instruct".toList,
          messages := [some { role := some "user", content := some "hi" }],
          temperature := 5, max_tokens := 0, stream := false,
          chat_template_kwargs_thinking := none } := by
  decide

/-- Claim C7 (amended): on a `data:` frame whose payload fails to parse,
variant A forwards the raw original line (with its SSE terminator)
unchanged and keeps its state, while variant B silently drops the frame;
in both variants processing simply continues, the stream is never
aborted. -/
theorem c7_amended_parse_failure_behavior (parse : List Char → Option ChunkTx)
    (sr : Bool) (req : String) (ro : Bool) (line : List Char) (ps : List (List Char))
    (hdata : "data:".toList.isPrefixOf line = true)
    (hnd : trimList (line.drop 5) ≠ "[DONE]".toList)
    (hfail : parse (trimList (line.drop 5)) = none) :
    processLineA parse sr req ro line = (ro, [.raw (line ++ ['\n', '\n'])]) ∧
    processPartsB parse (line :: ps) = processPartsB parse ps := by
  constructor
  · unfold processLineA
    rw [if_neg (not_not_intro hdata), if_neg hnd, hfail]
  · rw [processPartsB, if_neg (not_not_intro hdata), if_neg hnd, hfail]

/-- Witness for the amended C7 at a concrete unparsable frame. -/
theorem c7_amended_parse_failure_behavior_witness :
    ("data:".toList.isPrefixOf "data: oops".toList = true) ∧
    processLineA parseNone false "gpt-4o" false "data: oops".toList =
      (false, [.raw ("data: oops".toList ++ ['\n', '\n'])]) ∧
    processPartsB parseNone ["data: oops".toList] = processPartsB parseNone [] :=
  have h := c7_amended_parse_failure_behavior parseNone false "gpt-4o" false
    "data: oops".toList [] (by decide) (by decide) rfl
  ⟨by decide, h.1, h.2⟩

/-- Counterexample for C7 as stated: variant B's empty catch swallows the
parse failure and emits nothing for the frame instead of forwarding the
raw line. -/
theorem c7_counterexample_variantB_drops_unparsable :
    processPartsB parseNone ["data: nope".toList] = [] := by
  decide

/-- Claim C8 (amended): variant B answers 500 with the descriptive
`Invalid NIM response: missing content` whenever the upstream success
body has no choices or a falsy first message content; variant A instead
fabricates a 200 response (see the counterexample). -/
theorem c8_amended_variantB_500_on_missing_content (req : String) (emsg : Option String)
    (d : NimData) (h : (d.choices.getD []) = [] ∨ contentTruthyB d = false) :
    handleNonStreamB req 200 emsg d = .err 500 "Invalid NIM response: missing content" := by
  have hc : ¬ ((d.choices.getD []) ≠ [] ∧ contentTruthyB d = true) := by
    rcases h with h | h
    · intro hh
      exact hh.1 h
    · intro hh
      rw [h] at hh
      exact Bool.false_ne_true hh.2
  unfold handleNonStreamB
  rw [if_neg (by norm_num), if_pos hc]

/-- Witness for the amended C8 on a body without `choices`. -/
theorem c8_amended_variantB_500_witness :
    (({ id := none, choices := none, usage := none } : NimData).choices.getD [] = []) ∧
    handleNonStreamB "gpt-4o" 200 none { id := none, choices := none, usage := none } =
      .err 500 "Invalid NIM response: missing content" :=
  ⟨rfl, c8_amended_variantB_500_on_missing_content "gpt-4o" none _ (Or.inl rfl)⟩

/-- Counterexample for C8 as stated: on an upstream 200 body with no
`choices` field, variant A answers 200 with a fabricated empty-choices
completion instead of a 500. -/
theorem c8_counterexample_variantA_fabricates :
    handleNonStreamA false 0 "gpt-4o" 200 "OK" { id := none, choices := none, usage := none } =
      .ok { id := "chatcmpl-0", model := "gpt-4o", choices := [],
            usage := some { prompt_tokens := 0, completion_tokens := 0, total_tokens := 0 } } := by
  decide

/-- Claim C10 (amended): a successfully parsed frame without a
first-choice delta passes through variant A completely untouched — in
particular its upstream `model` field survives — while variant B
forwards it unchanged only when the choices list is empty and drops it
(thrown delta access, swallowed) when a first choice exists without a
delta. -/
theorem c10_amended_no_delta_frame_handling (sr : Bool) (req : String) (ro : Bool)
    (chunk : ChunkTx) (h : chunk.choices.head?.bind ChoiceTx.delta = none) :
    processChunkA sr req ro chunk = (ro, chunk) ∧
    (chunk.choices = [] → processEventB chunk = some chunk) ∧
    (chunk.choices ≠ [] → processEventB chunk = none) := by
  refine ⟨?_, fun hnil => by simp [processEventB, hnil], fun hne => ?_⟩
  · cases hch : chunk.choices with
    | nil => simp [processChunkA, transformStreamChunk, hch]
    | cons ch rest =>
      have hd : ch.delta = none := by
        rw [hch, List.head?_cons] at h
        simpa using h
      simp [processChunkA, transformStreamChunk, hch, hd]
  · cases hch : chunk.choices with
    | nil => exact absurd hch hne
    | cons ch rest =>
      have hd : ch.delta = none := by
        rw [hch, List.head?_cons] at h
        simpa using h
      simp [processEventB, hch, hd]

/-- Witness for the amended C10 on a choices-free frame. -/
theorem c10_amended_no_delta_frame_handling_witness :
    ((⟨"up/m", []⟩ : ChunkTx).choices.head?.bind ChoiceTx.delta = none) ∧
    processChunkA true "gpt-4o" false ⟨"up/m", []⟩ = (false, ⟨"up/m", []⟩) ∧
    processEventB ⟨"up/m", []⟩ = some ⟨"up/m", []⟩ :=
  have h := c10_amended_no_delta_frame_handling true "gpt-4o" false ⟨"up/m", []⟩ rfl
  ⟨rfl, h.1, h.2.1 rfl⟩

/-- A parse function recognising the single payload `x` as a frame whose
only choice has no delta (concrete input for the C10 counterexample). -/
def parseNoDelta : List Char → Option ChunkTx := fun l =>
  if l = "x".toList then some (mkChunk "deepseek-ai/deepseek-v3.1-terminus" none) else none

/-- Counterexample for C10 as stated: a parsed frame whose first choice
lacks a delta is dropped by variant B's stream handler instead of being
forwarded unchanged. -/
theorem c10_counterexample_variantB_drops_no_delta_frame :
    (feedB parseNoDelta [] "data: x\n\n".toList).2 = [] := by
  decide

end NimProxy
